import Mathlib

/-!
Shallow embedding of `hubvue/rust-httpie` (src/main.rs), a command-line HTTP
client: argument parsing (`parse_url`, `parse_kv_pair` / `KvPair::from_str`),
request-body construction (`post`), and response rendering (`print_status`,
`print_headers`, `print_body`, `get_content_type`, `print_resp`).

Strings are modelled as `List Char` (one entry per byte/character of the Rust
`str`; all relevant data is ASCII).  Fallible Rust code returning
`anyhow::Result` is modelled with `Except`; a Rust panic (`unwrap` failure) is
modelled as the error of an `Except Unit`.  Behaviour of third-party crates
that the program's visible behaviour depends on (`str::split`, the `url`,
`mime`, `jsonxf`, `http`/`reqwest` crates) is modelled faithfully to the
fidelity the theorems need; each such model carries a doc comment naming the
crate function it models.
-/

deriving instance DecidableEq for Except

namespace Httpie

/-- Model of Rust `str::split('=')` (generalised over the separator):
splits a character list at every occurrence of `sep`; the separator is not
part of any segment; `n` separators yield `n+1` (possibly empty) segments,
so the result is never the empty list (`"".split(sep)` yields `[""]`). -/
def splitOnChar (sep : Char) : List Char → List (List Char)
  | [] => [[]]
  | c :: cs =>
    if c = sep then
      [] :: splitOnChar sep cs
    else
      match splitOnChar sep cs with
      | [] => [[c]]
      | seg :: rest => (c :: seg) :: rest

/-- Structure `KvPair` from src/main.rs: a key/value pair parsed from a `key=value`
command-line token. -/
structure KvPair where
  k : List Char
  v : List Char
deriving Repr, DecidableEq

/-- The error message `anyhow!(format!("Failed to parse {}", s))` built by
`KvPair::from_str`. -/
def failMsg (s : List Char) : List Char :=
  ("Failed to parse ".toList) ++ s

/-- Function `KvPair::from_str` from src/main.rs: `let mut split = s.split("=")`, then
`split.next()` gives the key and a second `split.next()` gives the value;
each `None` from the iterator is turned into the `Failed to parse` error.
The iterator's first two items are the first two segments of the split. -/
def KvPair.from_str (s : List Char) : Except (List Char) KvPair := do
  let split := splitOnChar '=' s
  let k ← match split.get? 0 with
    | some k => Except.ok k
    | none => Except.error (failMsg s)
  let v ← match split.get? 1 with
    | some v => Except.ok v
    | none => Except.error (failMsg s)
  Except.ok ⟨k, v⟩

/-- Function `parse_kv_pair` from src/main.rs: delegates to `KvPair::from_str`. -/
def parse_kv_pair (s : List Char) : Except (List Char) KvPair :=
  KvPair.from_str s

example : parse_kv_pair ("a=1".toList) = Except.ok ⟨"a".toList, "1".toList⟩ := by decide
example : parse_kv_pair ("b=".toList) = Except.ok ⟨"b".toList, "".toList⟩ := by decide
example : parse_kv_pair ("a".toList) = Except.error ("Failed to parse a".toList) := by decide
example : parse_kv_pair ("a=1=2".toList) = Except.ok ⟨"a".toList, "1".toList⟩ := by decide

/-! ### Lemmas about `splitOnChar` -/

theorem splitOnChar_ne_nil (sep : Char) (s : List Char) : splitOnChar sep s ≠ [] := by
  induction s with
  | nil => simp [splitOnChar]
  | cons c cs ih =>
    simp only [splitOnChar]
    split
    · simp
    · cases h : splitOnChar sep cs with
      | nil => simp
      | cons seg rest => simp

theorem splitOnChar_of_not_mem {sep : Char} {s : List Char} (h : sep ∉ s) :
    splitOnChar sep s = [s] := by
  induction s with
  | nil => rfl
  | cons c cs ih =>
    simp only [List.mem_cons, not_or] at h
    simp only [splitOnChar]
    rw [if_neg (fun hc => h.1 hc.symm), ih h.2]

theorem splitOnChar_append {sep : Char} {k : List Char} (rest : List Char)
    (hk : sep ∉ k) :
    splitOnChar sep (k ++ sep :: rest) = k :: splitOnChar sep rest := by
  induction k with
  | nil => simp [splitOnChar]
  | cons c cs ih =>
    simp only [List.mem_cons, not_or] at hk
    simp only [List.cons_append, splitOnChar, List.append_eq]
    rw [if_neg (fun hc => hk.1 hc.symm), ih hk.2]

theorem splitOnChar_head (sep : Char) (s : List Char) :
    ∃ t, splitOnChar sep s = (s.takeWhile (fun c => !(c == sep))) :: t := by
  induction s with
  | nil => exact ⟨[], rfl⟩
  | cons c cs ih =>
    by_cases hc : c = sep
    · subst hc
      exact ⟨splitOnChar c cs, by simp [splitOnChar, List.takeWhile_cons]⟩
    · obtain ⟨t, ht⟩ := ih
      exact ⟨t, by simp [splitOnChar, ht, List.takeWhile_cons, hc]⟩

/-- Core fact about `KvPair::from_str` on inputs containing `=`: writing the
input as `k ++ "=" ++ rest` with `k` free of `=`, the key is `k` and the
value is `rest` truncated at the next `=`. -/
theorem from_str_first_split (k rest : List Char) (hk : '=' ∉ k) :
    KvPair.from_str (k ++ '=' :: rest) =
      Except.ok ⟨k, rest.takeWhile (fun c => !(c == '='))⟩ := by
  obtain ⟨t, ht⟩ := splitOnChar_head '=' rest
  simp [KvPair.from_str, splitOnChar_append rest hk, ht, Bind.bind, Except.bind]

/-! ### Claim theorems: key=value parsing (C1, C5, C6) -/

/-- C1, counterexample: on `"a=1=2"`, `KvPair::from_str` yields
`{key: "a", value: "1"}` — not `{key: "a", value: "1=2"}` as the claim
states — because the second `next()` of the split iterator returns only the
segment between the first and second `=`. -/
theorem C1_counterexample :
    KvPair.from_str ("a=1=2".toList) = Except.ok ⟨"a".toList, "1".toList⟩ ∧
    KvPair.from_str ("a=1=2".toList) ≠ Except.ok ⟨"a".toList, "1=2".toList⟩ := by
  decide

/-- C1 (amended): for every input containing at least one `=`, written as
`k ++ "=" ++ rest` with `k` free of `=` (so the first `=` is the split
point), parsing succeeds; the key is the substring before the first `=`,
and the value is the part of the remainder up to (not including) the next
`=` — not the entire remainder. -/
theorem C1_theorem (k rest : List Char) (hk : '=' ∉ k) :
    KvPair.from_str (k ++ '=' :: rest) =
      Except.ok ⟨k, rest.takeWhile (fun c => !(c == '='))⟩ :=
  from_str_first_split k rest hk

/-- C1, witness: instantiating the amended theorem at `"a=1=2"`. -/
theorem C1_witness :
    KvPair.from_str ("a=1=2".toList) = Except.ok ⟨"a".toList, "1".toList⟩ := by
  have h := C1_theorem ("a".toList) ("1=2".toList) (by decide)
  simpa using h

/-- C5: for every input string with no `=`, `KvPair::from_str` fails (the
split iterator has a single segment, so the second `next()` is `None`) with
the `Failed to parse` error; no `KvPair` is produced. -/
theorem C5_theorem (s : List Char) (h : '=' ∉ s) :
    KvPair.from_str s = Except.error (failMsg s) := by
  simp [KvPair.from_str, splitOnChar_of_not_mem h, Bind.bind, Except.bind]

/-- C5, witness: instantiating at `"a"`. -/
theorem C5_witness :
    KvPair.from_str ("a".toList) = Except.error ("Failed to parse a".toList) := by
  have h := C5_theorem ("a".toList) (by decide)
  simpa using h

/-- C6: for every `k=v` input whose key and value contain no `=`, parsing
succeeds with exactly that key and value; an empty value (`"b="`) is valid. -/
theorem C6_theorem (k v : List Char) (hk : '=' ∉ k) (hv : '=' ∉ v) :
    KvPair.from_str (k ++ '=' :: v) = Except.ok ⟨k, v⟩ := by
  rw [from_str_first_split k v hk]
  have hself : v.takeWhile (fun c => !(c == '=')) = v := by
    apply List.takeWhile_eq_self_iff.mpr
    intro c hc
    simp only [Bool.not_eq_true', beq_eq_false_iff_ne]
    exact fun hcv => hv (hcv ▸ hc)
  rw [hself]

/-- C6, witness: instantiating at `"a=1"` and `"b="`. -/
theorem C6_witness :
    KvPair.from_str ("a=1".toList) = Except.ok ⟨"a".toList, "1".toList⟩ ∧
    KvPair.from_str ("b=".toList) = Except.ok ⟨"b".toList, "".toList⟩ := by
  constructor
  · have h := C6_theorem ("a".toList) ("1".toList) (by decide) (by decide)
    simpa using h
  · have h := C6_theorem ("b".toList) ("".toList) (by decide) (by decide)
    simpa using h

/-! ### URL validation (`parse_url`) -/

/-- A parsed URL, as produced by the `url` crate (`reqwest::Url`): scheme,
optional host, and the remaining serialized text. -/
structure Url where
  scheme : List Char
  host : Option (List Char)
  rest : List Char
deriving Repr, DecidableEq

/-- Scheme continuation characters per URL syntax: ASCII alphanumeric,
`+`, `-` or `.`. -/
def isSchemeChar (c : Char) : Bool :=
  c.isAlphanum || c == '+' || c == '-' || c == '.'

/-- Splits a leading `scheme:` off the input: the scheme starts with an
ASCII alphabetic character, continues with scheme characters, and must be
terminated by `:`; otherwise there is no scheme (the input is a relative
reference, which `Url::parse` rejects for lack of a base). -/
def splitScheme : List Char → Option (List Char × List Char)
  | [] => none
  | c :: cs =>
    if c.isAlpha then
      match cs.dropWhile isSchemeChar with
      | ':' :: r => some ((c :: cs.takeWhile isSchemeChar).map Char.toLower, r)
      | _ => none
    else none

/-- Schemes the WHATWG URL standard treats as special (requiring a host). -/
def isSpecialScheme (sch : List Char) : Bool :=
  sch == "http".toList || sch == "https".toList || sch == "ws".toList ||
  sch == "wss".toList || sch == "ftp".toList

/-- Characters forbidden inside a host. -/
def isForbiddenHostChar (c : Char) : Bool :=
  c == ' ' || c == '\t' || c == '\n' || c == '\r' || c == '%' || c == '@'

/-- Modelled from the `url` crate (third-party): `Url::parse` per the WHATWG
URL standard, to the fidelity the claims need.  A string with no `scheme:`
prefix is rejected (`relative URL without a base`); a special scheme
(http/https/...) requires a nonempty, well-formed host after the slashes;
other schemes take the remainder as an opaque path. -/
def url_crate_parse (s : List Char) : Except (List Char) Url :=
  match splitScheme s with
  | none => Except.error ("relative URL without a base".toList)
  | some (sch, rest) =>
    if isSpecialScheme sch then
      let afterSlashes := rest.dropWhile (fun c => c == '/')
      let host := afterSlashes.takeWhile (fun c => !(c == '/') && !(c == '?') && !(c == '#'))
      if host.isEmpty then
        Except.error ("empty host".toList)
      else if host.any isForbiddenHostChar then
        Except.error ("invalid host".toList)
      else
        Except.ok ⟨sch, some host, afterSlashes.drop host.length⟩
    else
      Except.ok ⟨sch, none, rest⟩

/-- Function `parse_url` from src/main.rs: `let _url: Url = s.parse()?; Ok(s.into())` —
validates the string by parsing it as a `Url`, discards the parsed value,
and returns the original string unchanged. -/
def parse_url (s : List Char) : Except (List Char) (List Char) :=
  match url_crate_parse s with
  | Except.ok _ => Except.ok s
  | Except.error e => Except.error e

example : (parse_url ("abc".toList)).isOk = false := by decide
example : (parse_url ("http://abc.xyz".toList)).isOk = true := by decide
example : (parse_url ("https://httpbin.org/post".toList)).isOk = true := by decide

/-! ### Claim theorems: URL validation (C7, C10) -/

/-- C7: URL validation succeeds exactly when the string parses under the
(modelled) general URL syntax rules — `parse_url` accepts iff
`url_crate_parse` accepts, and never consults anything but the string's
syntax; in particular `"abc"` (no scheme/authority structure) is rejected
while `"http://abc.xyz"` and `"https://httpbin.org/post"` are accepted. -/
theorem C7_theorem :
    (∀ s : List Char, (parse_url s).isOk = (url_crate_parse s).isOk) ∧
    (parse_url ("abc".toList)).isOk = false ∧
    (parse_url ("http://abc.xyz".toList)).isOk = true ∧
    (parse_url ("https://httpbin.org/post".toList)).isOk = true := by
  refine ⟨fun s => ?_, by decide, by decide, by decide⟩
  unfold parse_url
  cases url_crate_parse s <;> rfl

/-- C10: whenever URL validation succeeds, the accepted value is the
original input string, character for character — the URL is not normalized
or re-serialized from its parsed form. -/
theorem C10_theorem (s t : List Char) (h : parse_url s = Except.ok t) : t = s := by
  unfold parse_url at h
  cases hp : url_crate_parse s <;> rw [hp] at h
  · exact absurd h (by simp)
  · exact (Except.ok.injEq _ _ ▸ h).symm

/-- C10, witness: instantiating at `"http://abc.xyz"`. -/
theorem C10_witness : ("http://abc.xyz".toList) = ("http://abc.xyz".toList) :=
  C10_theorem ("http://abc.xyz".toList) ("http://abc.xyz".toList) (by decide)

/-! ### Media types (model of the `mime` crate) -/

/-- A parsed media type, as in the `mime` crate: lowercased type and
subtype, plus the (name, value) parameters in order.  Structural equality
— which compares the parameter list too — models the crate's `PartialEq`
for `Mime`, under which `application/json; charset=utf-8` is NOT equal to
the parameterless constant `mime::APPLICATION_JSON`. -/
structure Mime where
  type_ : List Char
  subtype : List Char
  params : List (List Char × List Char)
deriving Repr, DecidableEq

/-- Token characters permitted in a media type's type, subtype and
parameter names. -/
def isMimeTokenChar (c : Char) : Bool :=
  c.isAlphanum || c == '!' || c == '#' || c == '$' || c == '&' || c == '-' ||
  c == '^' || c == '_' || c == '.' || c == '+' || c == '%' || c == '*' ||
  c == '|' || c == '~'

/-- Parses one `; name=value` parameter segment (leading spaces allowed). -/
def parseParam (seg : List Char) : Option (List Char × List Char) :=
  let seg2 := seg.dropWhile (fun c => c == ' ')
  let k := seg2.takeWhile (fun c => !(c == '='))
  match seg2.dropWhile (fun c => !(c == '=')) with
  | '=' :: v =>
    if !k.isEmpty && k.all isMimeTokenChar && !v.isEmpty then
      some (k.map Char.toLower, v)
    else none
  | _ => none

/-- Modelled from the `mime` crate (third-party): `Mime::from_str` requires
`type/subtype` of token characters (lowercased on parse), optionally
followed by `; name=value` parameters; anything else is a parse error. -/
def mime_from_str (s : List Char) : Except Unit Mime :=
  match splitOnChar ';' s with
  | [] => Except.error ()
  | main :: paramSegs =>
    let ty := main.takeWhile (fun c => !(c == '/'))
    match main.dropWhile (fun c => !(c == '/')) with
    | '/' :: sub =>
      if !ty.isEmpty && ty.all isMimeTokenChar &&
         !sub.isEmpty && sub.all isMimeTokenChar then
        match paramSegs.mapM parseParam with
        | some ps => Except.ok ⟨ty.map Char.toLower, sub.map Char.toLower, ps⟩
        | none => Except.error ()
      else Except.error ()
    | _ => Except.error ()

/-- Constant `mime::APPLICATION_JSON`: the parameterless `application/json`. -/
def APPLICATION_JSON : Mime := ⟨"application".toList, "json".toList, []⟩

example : mime_from_str ("application/json".toList) = Except.ok APPLICATION_JSON := by decide
example : mime_from_str ("abc".toList) = Except.error () := by decide

/-! ### JSON (model of the `jsonxf` / `serde_json` crates) -/

/-- A JSON document; numbers are kept as their source text. -/
inductive Json where
  | null
  | bool (b : Bool)
  | num (s : List Char)
  | str (s : List Char)
  | arr (xs : List Json)
  | obj (xs : List (List Char × Json))

def skipWs (s : List Char) : List Char :=
  s.dropWhile (fun c => c == ' ' || c == '\n' || c == '\t' || c == '\r')

def isNumStart (c : Char) : Bool := c.isDigit || c == '-'

def isNumChar (c : Char) : Bool :=
  c.isDigit || c == '-' || c == '+' || c == '.' || c == 'e' || c == 'E'

def parseNum (s : List Char) : Option (Json × List Char) :=
  let ds := s.takeWhile isNumChar
  if ds.isEmpty then none else some (Json.num ds, s.dropWhile isNumChar)

mutual

/-- Recursive-descent JSON value parser (fuel-bounded; fuel at least the
input length always suffices since every recursive call follows a consumed
character). -/
def parseVal : Nat → List Char → Option (Json × List Char)
  | 0, _ => none
  | fuel+1, s =>
    match skipWs s with
    | [] => none
    | 'n' :: r => if r.take 3 = "ull".toList then some (Json.null, r.drop 3) else none
    | 't' :: r => if r.take 3 = "rue".toList then some (Json.bool true, r.drop 3) else none
    | 'f' :: r => if r.take 4 = "alse".toList then some (Json.bool false, r.drop 4) else none
    | '"' :: r => (parseStrBody fuel r).map (fun p => (Json.str p.1, p.2))
    | '[' :: r =>
      (match skipWs r with
       | ']' :: r2 => some (Json.arr [], r2)
       | _ => (parseElems fuel r).map (fun p => (Json.arr p.1, p.2)))
    | '\x7b' :: r =>
      (match skipWs r with
       | '\x7d' :: r2 => some (Json.obj [], r2)
       | _ => (parseMembers fuel r).map (fun p => (Json.obj p.1, p.2)))
    | c :: r => if isNumStart c then parseNum (c :: r) else none

/-- Body of a JSON string after the opening quote; escape sequences are
kept verbatim. -/
def parseStrBody : Nat → List Char → Option (List Char × List Char)
  | 0, _ => none
  | fuel+1, s =>
    match s with
    | [] => none
    | '"' :: r => some ([], r)
    | '\\' :: c :: r => (parseStrBody fuel r).map (fun p => ('\\' :: c :: p.1, p.2))
    | c :: r => (parseStrBody fuel r).map (fun p => (c :: p.1, p.2))

/-- One-or-more comma-separated array elements, ending at `]`. -/
def parseElems : Nat → List Char → Option (List Json × List Char)
  | 0, _ => none
  | fuel+1, s => do
    let (v, r) ← parseVal fuel s
    match skipWs r with
    | ',' :: r2 => (parseElems fuel r2).map (fun p => (v :: p.1, p.2))
    | ']' :: r2 => some ([v], r2)
    | _ => none

/-- One-or-more comma-separated `"key": value` members, ending at the
closing brace. -/
def parseMembers : Nat → List Char → Option (List (List Char × Json) × List Char)
  | 0, _ => none
  | fuel+1, s =>
    match skipWs s with
    | '"' :: r => do
      let (k, r2) ← parseStrBody fuel r
      match skipWs r2 with
      | ':' :: r3 => do
        let (v, r4) ← parseVal fuel r3
        match skipWs r4 with
        | ',' :: r5 => (parseMembers fuel r5).map (fun p => ((k, v) :: p.1, p.2))
        | '\x7d' :: r5 => some ([(k, v)], r5)
        | _ => none
      | _ => none
    | _ => none

end

/-- Full-input JSON parse: a single value with only whitespace around it. -/
def parse_json (s : List Char) : Option Json :=
  match parseVal (s.length + 2) s with
  | some (j, r) => if (skipWs r).isEmpty then some j else none
  | none => none

def spacesN (n : Nat) : List Char := List.replicate n ' '

mutual

/-- Two-space-indented serialization of a JSON value (`ind` is the nesting
depth of the value being printed). -/
def pretty_json : Nat → Json → List Char
  | _, Json.null => "null".toList
  | _, Json.bool true => "true".toList
  | _, Json.bool false => "false".toList
  | _, Json.num s => s
  | _, Json.str s => '"' :: (s ++ ['"'])
  | _, Json.arr [] => "[]".toList
  | ind, Json.arr (x :: xs) =>
    '[' :: '\n' :: (pretty_elems ind (x :: xs) ++ '\n' :: (spacesN (ind * 2) ++ [']']))
  | _, Json.obj [] => "\x7b\x7d".toList
  | ind, Json.obj (m :: ms) =>
    '\x7b' :: '\n' :: (pretty_members ind (m :: ms) ++ '\n' :: (spacesN (ind * 2) ++ ['\x7d']))

def pretty_elems : Nat → List Json → List Char
  | _, [] => []
  | ind, [x] => spacesN ((ind + 1) * 2) ++ pretty_json (ind + 1) x
  | ind, x :: y :: xs =>
    spacesN ((ind + 1) * 2) ++ (pretty_json (ind + 1) x ++ ',' :: '\n' :: pretty_elems ind (y :: xs))

def pretty_members : Nat → List (List Char × Json) → List Char
  | _, [] => []
  | ind, [(k, v)] =>
    spacesN ((ind + 1) * 2) ++ ('"' :: (k ++ '"' :: ':' :: ' ' :: pretty_json (ind + 1) v))
  | ind, (k, v) :: m :: ms =>
    spacesN ((ind + 1) * 2) ++
      ('"' :: (k ++ '"' :: ':' :: ' ' :: (pretty_json (ind + 1) v ++ ',' :: '\n' :: pretty_members ind (m :: ms))))

end

/-- Modelled from the `jsonxf` crate (third-party): `jsonxf::pretty_print`
re-serializes JSON text with indentation, returning `Err` on input that is
not valid JSON. -/
def jsonxf_pretty_print (s : List Char) : Except (List Char) (List Char) :=
  match parse_json s with
  | some j => Except.ok (pretty_json 0 j)
  | none => Except.error ("invalid json".toList)

/-! ### `print_body` -/

/-- Function `print_body` from src/main.rs: on `Some(v)` with `v == APPLICATION_JSON`
(full `Mime` equality, parameters included) it prints
`jsonxf::pretty_print(body).unwrap()` — the `unwrap` panic on invalid JSON
is the `Except.error`; every other case prints the body verbatim.  The
result is the printed text including `println!`'s trailing newline. -/
def print_body (m : Option Mime) (body : List Char) : Except Unit (List Char) :=
  match m with
  | some v =>
    if v = APPLICATION_JSON then
      match jsonxf_pretty_print body with
      | Except.ok p => Except.ok (p ++ ['\n'])
      | Except.error _ => Except.error ()
    else Except.ok (body ++ ['\n'])
  | none => Except.ok (body ++ ['\n'])

example : jsonxf_pretty_print ("\x7b\"a\":1\x7d".toList) =
    Except.ok ("\x7b\n  \"a\": 1\n\x7d".toList) := by decide
example : jsonxf_pretty_print ("hello".toList) =
    Except.error ("invalid json".toList) := by decide

/-! ### Claim theorems: body rendering condition (C2) -/

/-- C2, counterexample: `"application/json; charset=utf-8"` parses to a
media type whose type/subtype is `application/json` but which carries a
parameter, so it is not equal to `mime::APPLICATION_JSON` and `print_body`
emits the body verbatim — not pretty-printed as the claim states (the
pretty form differs from the verbatim body). -/
theorem C2_counterexample :
    mime_from_str ("application/json; charset=utf-8".toList) =
      Except.ok ⟨"application".toList, "json".toList,
        [("charset".toList, "utf-8".toList)]⟩ ∧
    print_body
        (some ⟨"application".toList, "json".toList,
          [("charset".toList, "utf-8".toList)]⟩)
        ("\x7b\"a\":1\x7d".toList) =
      Except.ok ("\x7b\"a\":1\x7d".toList ++ ['\n']) ∧
    jsonxf_pretty_print ("\x7b\"a\":1\x7d".toList) ≠
      Except.ok ("\x7b\"a\":1\x7d".toList) := by
  decide

/-- C2 (amended): the body is pretty-printed exactly when the parsed media
type equals the parameterless `application/json` (`mime::APPLICATION_JSON`);
for every other parsed media type — including `application/json` with
parameters such as `charset=utf-8` — and for an absent content-type, the
body text is emitted verbatim, unchanged. -/
theorem C2_theorem (m? : Option Mime) (body : List Char) :
    (m? = some APPLICATION_JSON ∨ print_body m? body = Except.ok (body ++ ['\n'])) ∧
    (m? = some APPLICATION_JSON →
      print_body m? body =
        ((jsonxf_pretty_print body).map (fun p => p ++ ['\n'])).mapError
          (fun _ => ())) := by
  constructor
  · match m? with
    | none => exact Or.inr rfl
    | some v =>
      by_cases hv : v = APPLICATION_JSON
      · exact Or.inl (by rw [hv])
      · exact Or.inr (by simp [print_body, hv])
  · intro h
    subst h
    simp only [print_body, if_pos rfl]
    cases jsonxf_pretty_print body <;> rfl

/-- C2, witness: at `application/json` with the body `{"a":1}` the output is
the pretty-printed JSON. -/
theorem C2_witness :
    print_body (some APPLICATION_JSON) ("\x7b\"a\":1\x7d".toList) =
      ((jsonxf_pretty_print ("\x7b\"a\":1\x7d".toList)).map
        (fun p => p ++ ['\n'])).mapError (fun _ => ()) :=
  (C2_theorem (some APPLICATION_JSON) ("\x7b\"a\":1\x7d".toList)).2 rfl

/-! ### POST request body (`post`) -/

/-- Model of `HashMap::insert` on an association list with unique keys:
overwrites the value at an existing key, otherwise appends the entry. -/
def insertKV : List (List Char × List Char) → List Char → List Char →
    List (List Char × List Char)
  | [], k, v => [(k, v)]
  | (k0, v0) :: rest, k, v =>
    if k0 = k then (k0, v) :: rest else (k0, v0) :: insertKV rest k v

/-- Lookup in the association-list map. -/
def lookupKV : List (List Char × List Char) → List Char → Option (List Char)
  | [], _ => none
  | (k0, v0) :: rest, key => if k0 = key then some v0 else lookupKV rest key

/-- The body map built by `post` in src/main.rs:
`let mut body = HashMap::new(); for pair in args.body.iter() { body.insert(&pair.k, &pair.v); }`. -/
def post_body (pairs : List KvPair) : List (List Char × List Char) :=
  pairs.foldl (fun m p => insertKV m p.k p.v) []

/-- The value of the last pair carrying the given key, if any. -/
def lastValue (pairs : List KvPair) (key : List Char) : Option (List Char) :=
  pairs.foldl (fun acc p => if p.k = key then some p.v else acc) none

/-- The JSON body sent by `post` (`client.post(&args.url).json(&body)`, which
serializes the map via serde_json): a JSON object with one string member per
map entry. -/
def post_body_json (pairs : List KvPair) : Json :=
  Json.obj ((post_body pairs).map (fun p => (p.1, Json.str p.2)))

theorem lookupKV_insertKV (m : List (List Char × List Char))
    (k v key : List Char) :
    lookupKV (insertKV m k v) key =
      if k = key then some v else lookupKV m key := by
  induction m with
  | nil => simp [insertKV, lookupKV]
  | cons hd rest ih =>
    obtain ⟨k0, v0⟩ := hd
    by_cases h0 : k0 = k
    · subst h0
      simp only [insertKV, if_pos rfl, lookupKV]
      split_ifs <;> rfl
    · simp only [insertKV, if_neg h0, lookupKV, ih]
      split_ifs with ha hb
      · exact absurd (ha.trans hb.symm) h0
      · rfl
      · rfl
      · rfl

theorem lookupKV_foldl (pairs : List KvPair)
    (m : List (List Char × List Char)) (key : List Char) :
    lookupKV (pairs.foldl (fun m p => insertKV m p.k p.v) m) key =
      pairs.foldl (fun acc p => if p.k = key then some p.v else acc)
        (lookupKV m key) := by
  induction pairs generalizing m with
  | nil => rfl
  | cons p ps ih =>
    simp only [List.foldl_cons]
    rw [ih, lookupKV_insertKV]

theorem mem_keys_insertKV (m : List (List Char × List Char))
    (k v a : List Char) :
    a ∈ (insertKV m k v).map Prod.fst ↔ a ∈ m.map Prod.fst ∨ a = k := by
  induction m with
  | nil => simp [insertKV]
  | cons hd rest ih =>
    obtain ⟨k0, v0⟩ := hd
    by_cases h0 : k0 = k
    · subst h0
      rw [show insertKV ((k0, v0) :: rest) k0 v = (k0, v) :: rest from by
        simp [insertKV]]
      simp only [List.map_cons, List.mem_cons]
      tauto
    · simp only [insertKV, if_neg h0, List.map_cons, List.mem_cons, ih]
      tauto

theorem nodup_keys_insertKV (m : List (List Char × List Char))
    (k v : List Char) (h : (m.map Prod.fst).Nodup) :
    ((insertKV m k v).map Prod.fst).Nodup := by
  induction m with
  | nil => simp [insertKV]
  | cons hd rest ih =>
    obtain ⟨k0, v0⟩ := hd
    simp only [List.map_cons, List.nodup_cons] at h
    by_cases h0 : k0 = k
    · subst h0
      simpa [insertKV, List.nodup_cons] using h
    · simp only [insertKV, if_neg h0, List.map_cons, List.nodup_cons]
      refine ⟨?_, ih h.2⟩
      rw [mem_keys_insertKV]
      rintro (hm | hk)
      · exact h.1 hm
      · exact h0 hk

theorem nodup_keys_foldl (pairs : List KvPair)
    (m : List (List Char × List Char)) (h : (m.map Prod.fst).Nodup) :
    (((pairs.foldl (fun m p => insertKV m p.k p.v) m)).map Prod.fst).Nodup := by
  induction pairs generalizing m with
  | nil => exact h
  | cons p ps ih =>
    simp only [List.foldl_cons]
    exact ih _ (nodup_keys_insertKV m p.k p.v h)

/-! ### Claim theorems: POST body construction (C3) -/

/-- C3: the POST body is the serialization of a mapping in which keys are
unique and, for every key, the stored value is the value of the last pair
with that key in the sequence (last write wins); for the pairs `a=1`, `b=2`
the sent JSON body is the object with exactly the members
`"a": "1"` and `"b": "2"`. -/
theorem C3_theorem :
    (∀ (pairs : List KvPair) (key : List Char),
        lookupKV (post_body pairs) key = lastValue pairs key) ∧
    (∀ pairs : List KvPair, ((post_body pairs).map Prod.fst).Nodup) ∧
    post_body [⟨"a".toList, "1".toList⟩, ⟨"b".toList, "2".toList⟩] =
      [("a".toList, "1".toList), ("b".toList, "2".toList)] ∧
    post_body_json [⟨"a".toList, "1".toList⟩, ⟨"b".toList, "2".toList⟩] =
      Json.obj [("a".toList, Json.str ("1".toList)),
                ("b".toList, Json.str ("2".toList))] := by
  refine ⟨fun pairs key => ?_, fun pairs => ?_, by decide, rfl⟩
  · exact lookupKV_foldl pairs [] key
  · exact nodup_keys_foldl pairs [] (by simp)

/-! ### Response rendering (`print_status`, `print_headers`,
`get_content_type`, `print_resp`) -/

/-- A received HTTP response as the renderer consumes it: the `Debug` form
of the protocol version (e.g. `"HTTP/1.1"`), the status code, the headers
as (name, value) pairs in receipt order (names lowercased, as the http
crate stores them), and the body text. -/
structure Response where
  version : List Char
  status_code : Nat
  headers : List (List Char × List Char)
  body : List Char
deriving Repr, DecidableEq

/-- Modelled from the http crate: `StatusCode`'s canonical reason phrase
(for the codes this development exercises; unknown codes display the
crate's placeholder). -/
def canonical_reason (code : Nat) : List Char :=
  if code = 200 then "OK".toList
  else if code = 201 then "Created".toList
  else if code = 204 then "No Content".toList
  else if code = 301 then "Moved Permanently".toList
  else if code = 302 then "Found".toList
  else if code = 400 then "Bad Request".toList
  else if code = 403 then "Forbidden".toList
  else if code = 404 then "Not Found".toList
  else if code = 500 then "Internal Server Error".toList
  else "<unknown status code>".toList

def natChars (n : Nat) : List Char := (Nat.repr n).toList

/-- Modelled from the http crate: the `Display` form of `StatusCode` —
decimal code, a space, the reason phrase. -/
def statusDisplay (code : Nat) : List Char :=
  natChars code ++ ' ' :: canonical_reason code

/-- Function `print_status` from src/main.rs:
`println!("{}\n", format!("{:?} {}", resp.version(), resp.status()))` — the
version's `Debug` text, a space, the status display, then the format
string's `\n` and `println!`'s own newline (a blank line).  The `.blue()`
ANSI styling applies only on a tty and is omitted from the model. -/
def print_status (resp : Response) : List Char :=
  resp.version ++ ' ' :: (statusDisplay resp.status_code ++ ['\n', '\n'])

def hexDigit (n : Nat) : Char :=
  if n < 10 then Char.ofNat (48 + n) else Char.ofNat (87 + (n - 10))

/-- Modelled from the http crate: the `Debug` rendering of one byte of a
`HeaderValue` — a double quote or backslash is backslash-escaped, other
visible ASCII and space are verbatim, everything else is a hex escape. -/
def headerByteDebug (c : Char) : List Char :=
  if c = '"' then ['\\', '"']
  else if c = '\\' then ['\\', '\\']
  else if 0x20 ≤ c.toNat ∧ c.toNat < 0x7f then [c]
  else ['\\', 'x', hexDigit (c.toNat / 16 % 16), hexDigit (c.toNat % 16)]

/-- Modelled from the http crate: `Debug` for `HeaderValue` wraps the
escaped bytes in double quotes. -/
def headerValueDebug (v : List Char) : List Char :=
  '"' :: ((v.map headerByteDebug).flatten ++ ['"'])

/-- Function `print_headers` from src/main.rs: for every header in order,
`println!("{}: {:?}", name, value)` — the name (its `.green()` styling
omitted), a colon and space, then the `Debug` form of the value; after the
loop `print!("\n")` emits one blank line. -/
def print_headers (resp : Response) : List Char :=
  (resp.headers.map
    (fun h => h.1 ++ ':' :: ' ' :: (headerValueDebug h.2 ++ ['\n']))).flatten ++ ['\n']

/-- Modelled from the http crate: `HeaderValue::to_str` succeeds only when
every byte is visible ASCII or space (0x20–0x7e). -/
def header_to_str_ok (v : List Char) : Bool :=
  v.all (fun c => 0x20 ≤ c.toNat && c.toNat ≤ 0x7e)

/-- Lookup `headers().get(name)`: the first header with the given name. -/
def findHeader (hs : List (List Char × List Char)) (name : List Char) :
    Option (List Char) :=
  (hs.find? (fun h => h.1 == name)).map Prod.snd

/-- Function `get_content_type` from src/main.rs:
`resp.headers().get(CONTENT_TYPE).map(|v| v.to_str().unwrap().parse().unwrap())` —
an absent header yields `None`; a present header whose value fails
`to_str` or fails `Mime` parsing panics (the two `unwrap`s), modelled as
`Except.error ()`. -/
def get_content_type (resp : Response) : Except Unit (Option Mime) :=
  match findHeader resp.headers ("content-type".toList) with
  | none => Except.ok none
  | some v =>
    if header_to_str_ok v then
      match mime_from_str v with
      | Except.ok m => Except.ok (some m)
      | Except.error _ => Except.error ()
    else Except.error ()

/-- Function `print_resp` from src/main.rs: prints the status block, the header
block, then the body via `print_body`; a panic in `get_content_type` or
`print_body` aborts the invocation (`Except.error`). -/
def print_resp (resp : Response) : Except Unit (List Char) :=
  match get_content_type resp with
  | Except.error e => Except.error e
  | Except.ok m =>
    match print_body m resp.body with
    | Except.error e => Except.error e
    | Except.ok b => Except.ok (print_status resp ++ (print_headers resp ++ b))

/-- Exit status of the rendering stage of one invocation: a Rust panic
terminates the process with exit code 101; success contributes 0. -/
def render_exit_code (resp : Response) : Nat :=
  match print_resp resp with
  | Except.ok _ => 0
  | Except.error _ => 101

/-- The rendering exactly as the spec's §4.3 words it (used to test C8 as
stated): status line then a blank line; for every header in receipt order
a `name: value` line with the value exactly as received; a blank line;
then the body. -/
def spec_claimed_render (resp : Response) (bodyOut : List Char) : List Char :=
  resp.version ++ ' ' :: (statusDisplay resp.status_code ++ '\n' :: '\n' ::
    ((resp.headers.map (fun h => h.1 ++ ':' :: ' ' :: (h.2 ++ ['\n']))).flatten ++
      '\n' :: bodyOut))

/-- The amended rendering: identical layout, except that each header value
appears in its quoted `Debug` form instead of exactly as received. -/
def spec_amended_render (resp : Response) (bodyOut : List Char) : List Char :=
  resp.version ++ ' ' :: (statusDisplay resp.status_code ++ '\n' :: '\n' ::
    ((resp.headers.map
        (fun h => h.1 ++ ':' :: ' ' :: (headerValueDebug h.2 ++ ['\n']))).flatten ++
      '\n' :: bodyOut))

/-- The concrete `text/plain` response used for the C8 theorems. -/
def respC8 : Response :=
  ⟨"HTTP/1.1".toList, 200,
   [("content-type".toList, "text/plain".toList)], "hello".toList⟩

/-! ### Claim theorems: rendering failures and layout (C4, C8, C9) -/

/-- C4: when the content-type parses to `application/json` but the body
is not valid JSON, rendering fails for the invocation — `print_resp`
aborts (the `unwrap` on `jsonxf::pretty_print` panics) without falling
back to the raw body text — and the process exit code is non-zero. -/
theorem C4_theorem (resp : Response)
    (h1 : get_content_type resp = Except.ok (some APPLICATION_JSON))
    (h2 : (parse_json resp.body).isNone = true) :
    print_resp resp = Except.error () ∧ render_exit_code resp ≠ 0 := by
  have h2' : parse_json resp.body = none := Option.isNone_iff_eq_none.mp h2
  have hb : print_body (some APPLICATION_JSON) resp.body = Except.error () := by
    simp [print_body, jsonxf_pretty_print, h2']
  have hpr : print_resp resp = Except.error () := by
    unfold print_resp
    rw [h1]
    dsimp only
    rw [hb]
  refine ⟨hpr, ?_⟩
  unfold render_exit_code
  rw [hpr]
  simp

/-- C4, witness: a response declared `application/json` with body `hello`
makes rendering fail with a non-zero exit code. -/
theorem C4_witness :
    print_resp ⟨"HTTP/1.1".toList, 200,
        [("content-type".toList, "application/json".toList)],
        "hello".toList⟩ = Except.error () ∧
    render_exit_code ⟨"HTTP/1.1".toList, 200,
        [("content-type".toList, "application/json".toList)],
        "hello".toList⟩ ≠ 0 :=
  C4_theorem _ (by decide) (by decide)

/-- C8, counterexample: rendering succeeds on a `text/plain` response with
one header, but the output is not the claimed `name: value` layout — the
header value is printed in quoted `Debug` form (`content-type:
"text/plain"`), so it is not preserved exactly as received. -/
theorem C8_counterexample :
    (print_resp respC8).isOk = true ∧
    print_resp respC8 ≠
      Except.ok (spec_claimed_render respC8 ("hello".toList ++ ['\n'])) := by
  decide

/-- C8 (amended): every successfully rendered response is emitted in the
claimed strict order — status line `version code reason`, blank line, each
header in receipt order, blank line, body — except that each header value
appears wrapped in double quotes (its `Debug` form, escaping quotes,
backslashes and non-printable bytes) rather than exactly as received. -/
theorem C8_theorem (resp : Response) (m : Option Mime) (bodyOut out : List Char)
    (h1 : get_content_type resp = Except.ok m)
    (h2 : print_body m resp.body = Except.ok bodyOut)
    (h3 : print_resp resp = Except.ok out) :
    out = spec_amended_render resp bodyOut := by
  unfold print_resp at h3
  rw [h1] at h3
  dsimp only at h3
  rw [h2] at h3
  dsimp only at h3
  have h4 : print_status resp ++ (print_headers resp ++ bodyOut) = out :=
    Except.ok.inj h3
  rw [← h4]
  simp [print_status, print_headers, spec_amended_render, List.append_assoc]

/-- C8, witness: the amended layout at the concrete `text/plain`
response. -/
theorem C8_witness :
    print_resp respC8 =
      Except.ok (spec_amended_render respC8 ("hello".toList ++ ['\n'])) := by
  have hok : print_resp respC8 =
      Except.ok (print_status respC8 ++
        (print_headers respC8 ++ ("hello".toList ++ ['\n']))) := by decide
  have h := C8_theorem respC8 (some ⟨"text".toList, "plain".toList, []⟩)
    ("hello".toList ++ ['\n'])
    (print_status respC8 ++ (print_headers respC8 ++ ("hello".toList ++ ['\n'])))
    (by decide) (by decide) hok
  rw [hok, h]

/-- C9: a present `Content-Type` header whose value is not representable
as a string (`to_str` fails) or does not parse as a media type makes
`get_content_type` panic (the two `unwrap`s), instead of returning an
error value or treating the content-type as absent. -/
theorem C9_theorem (resp : Response) (v : List Char)
    (h1 : findHeader resp.headers ("content-type".toList) = some v)
    (h2 : header_to_str_ok v = false ∨ mime_from_str v = Except.error ()) :
    get_content_type resp = Except.error () := by
  unfold get_content_type
  rw [h1]
  dsimp only
  rcases h2 with h | h
  · rw [if_neg (by simp [h])]
  · by_cases ht : header_to_str_ok v = true
    · rw [if_pos ht, h]
    · rw [if_neg ht]

/-- C9, witness: a `Content-Type` value `abc` (no `type/subtype` shape)
panics the extraction. -/
theorem C9_witness :
    get_content_type ⟨"HTTP/1.1".toList, 200,
        [("content-type".toList, "abc".toList)], "".toList⟩ =
      Except.error () :=
  C9_theorem _ ("abc".toList) (by decide) (Or.inr (by decide))

end Httpie
